import Mathlib

/-!
# Verification of the QRIS D1 watcher

A shallow embedding of the core logic of the `qris-d1-watcher` repository:

* the upsert store (`persistDetails` / `upsertTransactions` in
  `scripts/watch_transactions.js` and `worker/src/database.ts`, together with
  the parameter mapping `mapDetailToColumns` / `mapDetailToParams`),
* the poll scheduler (`poll` and `shouldRelogin` in
  `scripts/watch_transactions.js`),
* the recursive detail extractor (`collectDetailRecords` /
  `extractTransactionDetails`),
* the replay clients (`fetchTransactionsFromPage` in the one-shot script and
  `fetchTransactions` in the watcher),
* date normalization (`normalizeDateInput`),
* the post-login settle waits (`waitForPostLoginSignals`),
* the list endpoint (`handleListTransactions` in `worker/src/index.ts`).

JavaScript runtime values that flow through these functions are modelled by
`JVal`.  JS numbers are modelled at integer precision (`Option Int`, with
`none` standing for `NaN`); the transaction amounts handled by the portal are
integral and no verified property depends on fractional values.
-/

namespace QrisWatcher

/-- A JavaScript value as it appears in a detail record field or an error
object: `null`, `undefined`, a boolean, a number (`none` models `NaN`), or a
string. -/
inductive JVal where
  | null
  | undef
  | bool (b : Bool)
  | num (v : Option Int)
  | str (s : String)
deriving DecidableEq, Repr

/-- JavaScript truthiness: `null`, `undefined`, `false`, `0`, `NaN` and the
empty string are falsy, everything else is truthy. -/
def JVal.truthy : JVal → Bool
  | .null => false
  | .undef => false
  | .bool b => b
  | .num none => false
  | .num (some n) => decide (n ≠ 0)
  | .str s => decide (s ≠ "")

/-- The JS expression `v ?? null`: `undefined` and `null` collapse to `null`,
every other value is kept. -/
def jsCoalesceNull : JVal → JVal
  | .null => .null
  | .undef => .null
  | v => v

/-- `Number(s)` for a string, at integer precision: surrounding whitespace is
ignored, the empty string converts to `0`, an optionally signed digit string
converts to its value, anything else is `NaN` (`none`). -/
def jsNumberOfString (s : String) : Option Int :=
  let t := s.trim
  if t = "" then some 0
  else
    let digitVal : List Char → Option Nat := fun cs =>
      if cs ≠ [] ∧ cs.all Char.isDigit then
        some (cs.foldl (fun a c => a * 10 + (c.toNat - 48)) 0)
      else none
    match t.data with
    | '-' :: rest => (digitVal rest).map (fun n => -(n : Int))
    | '+' :: rest => (digitVal rest).map (fun n => (n : Int))
    | l => (digitVal l).map (fun n => (n : Int))

/-- `Number(v)` coercion for the values `toNumber` may receive. -/
def jsNumber : JVal → Option Int
  | .null => some 0
  | .undef => none
  | .bool b => some (if b then 1 else 0)
  | .num v => v
  | .str s => jsNumberOfString s

/-- The `toNumber` helper of `mapDetailToColumns` / `mapDetailToParams`:
`null`, `undefined` and the empty string map to SQL `NULL`; any other value is
coerced with `Number(...)`. -/
def toNumber : JVal → JVal
  | .null => .null
  | .undef => .null
  | .str "" => .null
  | v => .num (jsNumber v)

/-- The `booleanToInt` helper: JS truthiness collapsed to the integers `1` and
`0` (source: `(value) => (value ? 1 : 0)`). -/
def booleanToInt (v : JVal) : JVal := .num (some (if v.truthy then 1 else 0))

/-- A transaction detail record as received from the portal: the fields read
by `mapDetailToColumns` (`scripts/watch_transactions.js`) and
`mapDetailToParams` (`worker/src/database.ts`), each an arbitrary JS value. -/
structure Detail where
  reffNumber : JVal
  number : JVal
  isTransferToRek : JVal
  transferAmount : JVal
  transferAmountNumber : JVal
  feeAmount : JVal
  feeAmountNumber : JVal
  authAmount : JVal
  authAmountNumber : JVal
  percentageFeeAmount : JVal
  percentageFeeAmountNumber : JVal
  issuerName : JVal
  customerName : JVal
  mpan : JVal
  tid : JVal
  cpan : JVal
  authDateTime : JVal
  timeDataChange : JVal
  settleDate : JVal
deriving DecidableEq, Repr

/-- The twenty bound parameters of the upsert statement, in column order.
`rawJson` models `JSON.stringify(detail)`; serialization is injective on the
record, so the record itself stands for its serialized form. -/
structure Params where
  reffNumber : JVal
  number : JVal
  isTransferToRek : JVal
  transferAmount : JVal
  transferAmountNumber : JVal
  feeAmount : JVal
  feeAmountNumber : JVal
  authAmount : JVal
  authAmountNumber : JVal
  percentageFeeAmount : JVal
  percentageFeeAmountNumber : JVal
  issuerName : JVal
  customerName : JVal
  mpan : JVal
  tid : JVal
  cpan : JVal
  authDateTime : JVal
  timeDataChange : JVal
  settleDate : JVal
  rawJson : Detail
deriving DecidableEq, Repr

/-- `mapDetailToColumns` (watcher) = `mapDetailToParams` (worker): build the
parameter vector for the upsert statement from a detail record. -/
def mapDetailToColumns (d : Detail) : Params where
  reffNumber := d.reffNumber
  number := jsCoalesceNull d.number
  isTransferToRek := booleanToInt d.isTransferToRek
  transferAmount := jsCoalesceNull d.transferAmount
  transferAmountNumber := toNumber d.transferAmountNumber
  feeAmount := jsCoalesceNull d.feeAmount
  feeAmountNumber := toNumber d.feeAmountNumber
  authAmount := jsCoalesceNull d.authAmount
  authAmountNumber := toNumber d.authAmountNumber
  percentageFeeAmount := jsCoalesceNull d.percentageFeeAmount
  percentageFeeAmountNumber := toNumber d.percentageFeeAmountNumber
  issuerName := jsCoalesceNull d.issuerName
  customerName := jsCoalesceNull d.customerName
  mpan := jsCoalesceNull d.mpan
  tid := jsCoalesceNull d.tid
  cpan := jsCoalesceNull d.cpan
  authDateTime := jsCoalesceNull d.authDateTime
  timeDataChange := jsCoalesceNull d.timeDataChange
  settleDate := jsCoalesceNull d.settleDate
  rawJson := d

/-- A row of the `transactions` table: the twenty parameter-backed columns
plus the timestamp columns `created_at` (set by the column default on insert,
untouched by the conflict clause) and `updated_at` (set to
`CURRENT_TIMESTAMP` by both branches).  Timestamps are abstract instants. -/
structure Row where
  params : Params
  createdAt : Nat
  updatedAt : Nat
deriving DecidableEq, Repr

/-- The primary-key value of a row (`reff_number TEXT PRIMARY KEY`). -/
def rowKey (r : Row) : JVal := r.params.reffNumber

/-- One execution of the `INSERT ... ON CONFLICT(reff_number) DO UPDATE`
statement at instant `t`: if a row with the incoming reference number exists,
every mutable column is overwritten from `excluded` and `updated_at` is set to
`t`, leaving `created_at` alone; otherwise a fresh row is appended with both
timestamps `t`. -/
def upsertOneSql (t : Nat) (table : List Row) (d : Detail) : List Row :=
  if d.reffNumber ∈ table.map rowKey then
    table.map (fun r =>
      if rowKey r = d.reffNumber then
        { params := mapDetailToColumns d, createdAt := r.createdAt,
          updatedAt := t }
      else r)
  else
    table ++ [{ params := mapDetailToColumns d, createdAt := t,
                updatedAt := t }]

/-- `persistDetails` (watcher) = `upsertTransactions` (worker): iterate over
the extracted details, silently skipping any record whose `reffNumber` is
falsy (`if (!detail || !detail.reffNumber) continue`), upserting the rest and
counting the statements executed. -/
def persistDetails (t : Nat) (table : List Row) (details : List Detail) :
    List Row × Nat :=
  details.foldl
    (fun acc d =>
      if d.reffNumber.truthy then (upsertOneSql t acc.1 d, acc.2 + 1) else acc)
    (table, 0)

/-- The table component of `persistDetails`, without the statement counter. -/
def persistTable (t : Nat) (table : List Row) (details : List Detail) :
    List Row :=
  details.foldl
    (fun tb d => if d.reffNumber.truthy then upsertOneSql t tb d else tb)
    table

/-- A concrete well-formed detail record, used to instantiate theorems. -/
def sampleDetail (reff : String) : Detail where
  reffNumber := .str reff
  number := .str "001"
  isTransferToRek := .bool false
  transferAmount := .str "50.000"
  transferAmountNumber := .num (some 50000)
  feeAmount := .str "0"
  feeAmountNumber := .num (some 0)
  authAmount := .str "50.000"
  authAmountNumber := .num (some 50000)
  percentageFeeAmount := .null
  percentageFeeAmountNumber := .undef
  issuerName := .str "BANK"
  customerName := .str "JOHN DOE"
  mpan := .str "9360000800001"
  tid := .str "T0001"
  cpan := .null
  authDateTime := .str "2025-11-26 10:00:00"
  timeDataChange := .null
  settleDate := .str "20251126"

lemma persistDetails_fold_fst (t : Nat) :
    ∀ (ds : List Detail) (tb : List Row) (c : Nat),
      (ds.foldl
        (fun acc d =>
          if d.reffNumber.truthy then (upsertOneSql t acc.1 d, acc.2 + 1)
          else acc)
        (tb, c)).1 = persistTable t tb ds := by
  intro ds
  induction ds with
  | nil => intro tb c; rfl
  | cons d rest ih =>
    intro tb c
    by_cases h : d.reffNumber.truthy
    · simp [persistTable, List.foldl_cons, h] at ih ⊢
      exact ih (upsertOneSql t tb d) (c + 1)
    · simp [persistTable, List.foldl_cons, h] at ih ⊢
      exact ih tb c

lemma persistDetails_fst (t : Nat) (tb : List Row) (ds : List Detail) :
    (persistDetails t tb ds).1 = persistTable t tb ds :=
  persistDetails_fold_fst t ds tb 0

lemma upsertOneSql_map_rowKey (t : Nat) (tb : List Row) (d : Detail) :
    (upsertOneSql t tb d).map rowKey =
      if d.reffNumber ∈ tb.map rowKey then tb.map rowKey
      else tb.map rowKey ++ [d.reffNumber] := by
  by_cases h : d.reffNumber ∈ tb.map rowKey
  · simp only [upsertOneSql, h, if_true, List.map_map]
    refine List.map_congr_left ?_
    intro r _
    by_cases hk : rowKey r = d.reffNumber
    · rw [Function.comp_apply, if_pos hk]
      exact hk.symm
    · rw [Function.comp_apply, if_neg hk]
  · simp [upsertOneSql, h, rowKey, mapDetailToColumns]

lemma upsertOneSql_length (t : Nat) (tb : List Row) (d : Detail) :
    (upsertOneSql t tb d).length =
      if d.reffNumber ∈ tb.map rowKey then tb.length else tb.length + 1 := by
  by_cases h : d.reffNumber ∈ tb.map rowKey
  · simp [upsertOneSql, h]
  · simp [upsertOneSql, h]

lemma persistTable_length_keys (t : Nat) :
    ∀ (ds : List Detail) (tb : List Row),
      (∀ d ∈ ds, d.reffNumber.truthy = true) →
      (ds.map Detail.reffNumber).Nodup →
      ((persistTable t tb ds).length
        = tb.length + ((ds.map Detail.reffNumber).filter
            (fun k => !decide (k ∈ tb.map rowKey))).length)
      ∧ ∀ k, k ∈ (persistTable t tb ds).map rowKey ↔
              k ∈ tb.map rowKey ∨ k ∈ ds.map Detail.reffNumber := by
  intro ds
  induction ds with
  | nil =>
    intro tb _ _
    constructor
    · simp [persistTable]
    · intro k; simp [persistTable]
  | cons d rest ih =>
    intro tb hv hn
    have hd : d.reffNumber.truthy = true := hv d (List.mem_cons_self d rest)
    have hvrest : ∀ x ∈ rest, x.reffNumber.truthy = true := fun x hx =>
      hv x (List.mem_cons_of_mem d hx)
    have hnotmem : d.reffNumber ∉ rest.map Detail.reffNumber := by
      have := hn
      simp only [List.map_cons, List.nodup_cons] at this
      exact this.1
    have hnrest : (rest.map Detail.reffNumber).Nodup := by
      have := hn
      simp only [List.map_cons, List.nodup_cons] at this
      exact this.2
    have hstep : persistTable t tb (d :: rest)
        = persistTable t (upsertOneSql t tb d) rest := by
      simp [persistTable, List.foldl_cons, hd]
    by_cases hmem : d.reffNumber ∈ tb.map rowKey
    · -- conflict: the key set and the row count are unchanged
      have hkeys := upsertOneSql_map_rowKey t tb d
      rw [if_pos hmem] at hkeys
      have hlen := upsertOneSql_length t tb d
      rw [if_pos hmem] at hlen
      obtain ⟨ihlen, ihmem⟩ := ih (upsertOneSql t tb d) hvrest hnrest
      constructor
      · rw [hstep, ihlen, hkeys, hlen]
        have hb : (!decide (d.reffNumber ∈ tb.map rowKey)) = false := by
          simp [hmem]
        simp only [List.map_cons, List.filter_cons, hb, Bool.false_eq_true,
          if_false]
      · intro k
        rw [hstep, ihmem k, hkeys]
        constructor
        · rintro (h | h)
          · exact Or.inl h
          · exact Or.inr (by simp [h])
        · rintro (h | h)
          · exact Or.inl h
          · rcases (by simpa using h : k = d.reffNumber ∨
                k ∈ rest.map Detail.reffNumber) with h' | h'
            · exact Or.inl (h' ▸ hmem)
            · exact Or.inr h'
    · -- fresh key: one row is appended
      have hkeys := upsertOneSql_map_rowKey t tb d
      rw [if_neg hmem] at hkeys
      have hlen := upsertOneSql_length t tb d
      rw [if_neg hmem] at hlen
      obtain ⟨ihlen, ihmem⟩ := ih (upsertOneSql t tb d) hvrest hnrest
      constructor
      · rw [hstep, ihlen, hkeys, hlen]
        have hfc : (rest.map Detail.reffNumber).filter
              (fun k => !decide (k ∈ tb.map rowKey ++ [d.reffNumber]))
            = (rest.map Detail.reffNumber).filter
              (fun k => !decide (k ∈ tb.map rowKey)) := by
          refine List.filter_congr ?_
          intro k hk
          have hkne : k ≠ d.reffNumber := fun h => hnotmem (h ▸ hk)
          simp [List.mem_append, hkne]
        rw [hfc]
        have hb : (!decide (d.reffNumber ∈ tb.map rowKey)) = true := by
          simp [hmem]
        simp only [List.map_cons, List.filter_cons, hb, if_true,
          List.length_cons]
        omega
      · intro k
        rw [hstep, ihmem k, hkeys]
        simp only [List.mem_append, List.mem_singleton, List.map_cons,
          List.mem_cons]
        tauto

/-- Helper: the length of a list is split by a boolean filter and its
negation. -/
lemma length_filter_not_eq {α : Type} (l : List α) (p : α → Bool) :
    (l.filter (fun a => !p a)).length = l.length - (l.filter p).length := by
  induction l with
  | nil => simp
  | cons a rest ih =>
    have hle : (rest.filter p).length ≤ rest.length := List.length_filter_le _ _
    by_cases h : p a
    · simp [List.filter_cons, h, ih]
    · simp [List.filter_cons, h, ih]
      omega

/-- Helper: filtering a mapped list is mapping a filtered list. -/
lemma filter_map_comm {α β : Type} (f : α → β) (p : β → Bool) (l : List α) :
    (l.map f).filter p = (l.filter (fun a => p (f a))).map f := by
  induction l with
  | nil => rfl
  | cons a rest ih =>
    by_cases h : p (f a)
    · simp [List.filter_cons, h, ih]
    · simp [List.filter_cons, h, ih]

/-- C1: upserting a batch of N records with pairwise-distinct reference
numbers and then a batch of M records with pairwise-distinct reference
numbers, K of which share a reference number with the first batch, leaves the
transactions table with exactly N + M − K rows. -/
theorem upsert_batches_row_count
    (t1 t2 : Nat) (ds1 ds2 : List Detail)
    (hv1 : ∀ d ∈ ds1, d.reffNumber.truthy = true)
    (hv2 : ∀ d ∈ ds2, d.reffNumber.truthy = true)
    (hn1 : (ds1.map Detail.reffNumber).Nodup)
    (hn2 : (ds2.map Detail.reffNumber).Nodup) :
    (persistDetails t2 (persistDetails t1 [] ds1).1 ds2).1.length
      = ds1.length + ds2.length
        - (ds2.filter
            (fun d => decide (d.reffNumber ∈ ds1.map Detail.reffNumber))).length := by
  rw [persistDetails_fst, persistDetails_fst]
  obtain ⟨hlen1, hmem1⟩ := persistTable_length_keys t1 ds1 [] hv1 hn1
  obtain ⟨hlen2, _⟩ :=
    persistTable_length_keys t2 ds2 (persistTable t1 [] ds1) hv2 hn2
  have hL1 : (persistTable t1 [] ds1).length = ds1.length := by
    rw [hlen1]; simp
  have hfc : (ds2.map Detail.reffNumber).filter
        (fun k => !decide (k ∈ (persistTable t1 [] ds1).map rowKey))
      = (ds2.map Detail.reffNumber).filter
        (fun k => !decide (k ∈ ds1.map Detail.reffNumber)) := by
    refine List.filter_congr ?_
    intro k _
    have hiff : (k ∈ (persistTable t1 [] ds1).map rowKey)
        ↔ (k ∈ ds1.map Detail.reffNumber) := by
      rw [hmem1 k]; simp
    exact congrArg (fun b => !b) (decide_eq_decide.mpr hiff)
  rw [hlen2, hL1, hfc, filter_map_comm]
  have hsplit := length_filter_not_eq ds2
    (fun d => decide (d.reffNumber ∈ ds1.map Detail.reffNumber))
  simp only [List.length_map]
  rw [hsplit]
  have hK : (ds2.filter
      (fun d => decide (d.reffNumber ∈ ds1.map Detail.reffNumber))).length
      ≤ ds2.length := List.length_filter_le _ _
  omega

/-- A second observation of the sample record, with different mutable field
values. -/
def sampleDetail2 : Detail :=
  { sampleDetail "TX1" with
      customerName := .str "JANE ROE"
      authAmountNumber := .num (some 60000)
      isTransferToRek := .bool true }

theorem upsert_batches_row_count_witness :
    (∀ d ∈ [sampleDetail "TX1", sampleDetail "TX2"],
        d.reffNumber.truthy = true)
    ∧ ((persistDetails 2 (persistDetails 1 []
          [sampleDetail "TX1", sampleDetail "TX2"]).1
          [sampleDetail2, sampleDetail "TX3"]).1.length
        = 2 + 2 - ([sampleDetail2, sampleDetail "TX3"].filter
            (fun d => decide (d.reffNumber ∈
              [sampleDetail "TX1", sampleDetail "TX2"].map
                Detail.reffNumber))).length) :=
  ⟨by decide,
   upsert_batches_row_count 1 2
     [sampleDetail "TX1", sampleDetail "TX2"]
     [sampleDetail2, sampleDetail "TX3"]
     (by decide) (by decide) (by decide) (by decide)⟩

lemma find?_overwrite (t : Nat) (d : Detail) :
    ∀ (tb : List Row) (r : Row),
      tb.find? (fun row => rowKey row == d.reffNumber) = some r →
      (tb.map (fun row =>
          if rowKey row = d.reffNumber then
            Row.mk (mapDetailToColumns d) row.createdAt t
          else row)).find? (fun row => rowKey row == d.reffNumber)
        = some (Row.mk (mapDetailToColumns d) r.createdAt t) := by
  intro tb
  induction tb with
  | nil => intro r hr; simp at hr
  | cons r0 rest ih =>
    intro r hr
    by_cases hk : rowKey r0 = d.reffNumber
    · have hp : (rowKey r0 == d.reffNumber) = true := by simp [hk]
      rw [List.find?_cons_of_pos (p := fun row => rowKey row == d.reffNumber)
        rest hp] at hr
      have hr0 : r = r0 := by injection hr with h; exact h.symm
      subst hr0
      simp only [List.map_cons, if_pos hk]
      refine List.find?_cons_of_pos _ ?_
      simp [rowKey, mapDetailToColumns]
    · have hp : ¬ ((rowKey r0 == d.reffNumber) = true) := by simp [hk]
      rw [List.find?_cons_of_neg (p := fun row => rowKey row == d.reffNumber)
        rest hp] at hr
      simp only [List.map_cons, if_neg hk]
      rw [List.find?_cons_of_neg
        (p := fun row => rowKey row == d.reffNumber) _ hp]
      exact ih r hr

/-- C6: upserting a record whose reference number is already present
overwrites every mutable column with the new record's parameter vector, keeps
`created_at`, and sets `updated_at` to the (later) statement timestamp. -/
theorem upsert_conflict_last_write_wins
    (t : Nat) (tb : List Row) (d : Detail) (r : Row)
    (hfind : tb.find? (fun row => rowKey row == d.reffNumber) = some r) :
    (upsertOneSql t tb d).find? (fun row => rowKey row == d.reffNumber)
      = some (Row.mk (mapDetailToColumns d) r.createdAt t)
    ∧ (r.updatedAt < t →
        r.updatedAt < (Row.mk (mapDetailToColumns d) r.createdAt t).updatedAt) := by
  have hkey : rowKey r = d.reffNumber := by
    have hp := List.find?_some hfind
    simpa using hp
  have hmem : d.reffNumber ∈ tb.map rowKey :=
    hkey ▸ List.mem_map_of_mem rowKey (List.mem_of_find?_eq_some hfind)
  refine ⟨?_, fun h => h⟩
  rw [upsertOneSql, if_pos hmem]
  exact find?_overwrite t d tb r hfind

theorem upsert_conflict_last_write_wins_witness :
    ([Row.mk (mapDetailToColumns (sampleDetail "TX1")) 1 1].find?
        (fun row => rowKey row == sampleDetail2.reffNumber)
      = some (Row.mk (mapDetailToColumns (sampleDetail "TX1")) 1 1))
    ∧ ((upsertOneSql 7 [Row.mk (mapDetailToColumns (sampleDetail "TX1")) 1 1]
          sampleDetail2).find?
          (fun row => rowKey row == sampleDetail2.reffNumber)
        = some (Row.mk (mapDetailToColumns sampleDetail2) 1 7)) :=
  ⟨by decide,
   (upsert_conflict_last_write_wins 7
     [Row.mk (mapDetailToColumns (sampleDetail "TX1")) 1 1]
     sampleDetail2
     (Row.mk (mapDetailToColumns (sampleDetail "TX1")) 1 1)
     (by decide)).1⟩

lemma upsertOneSql_isTransferToRek (t : Nat) (tb : List Row) (d : Detail)
    (htb : ∀ r ∈ tb, r.params.isTransferToRek = JVal.num (some 0)
        ∨ r.params.isTransferToRek = JVal.num (some 1)) :
    ∀ r ∈ upsertOneSql t tb d,
      r.params.isTransferToRek = JVal.num (some 0)
      ∨ r.params.isTransferToRek = JVal.num (some 1) := by
  have hmap : (mapDetailToColumns d).isTransferToRek = JVal.num (some 0)
      ∨ (mapDetailToColumns d).isTransferToRek = JVal.num (some 1) := by
    by_cases h : d.isTransferToRek.truthy <;>
      simp [mapDetailToColumns, booleanToInt, h]
  intro r hr
  rw [upsertOneSql] at hr
  split at hr
  · obtain ⟨r0, hr0, heq⟩ := List.mem_map.mp hr
    by_cases hk : rowKey r0 = d.reffNumber
    · rw [if_pos hk] at heq
      rw [← heq]
      exact hmap
    · rw [if_neg hk] at heq
      rw [← heq]
      exact htb r0 hr0
  · rcases List.mem_append.mp hr with h | h
    · exact htb r h
    · have : r = Row.mk (mapDetailToColumns d) t t := by simpa using h
      rw [this]
      exact hmap

lemma persistTable_isTransferToRek (t : Nat) :
    ∀ (ds : List Detail) (tb : List Row),
      (∀ r ∈ tb, r.params.isTransferToRek = JVal.num (some 0)
          ∨ r.params.isTransferToRek = JVal.num (some 1)) →
      ∀ r ∈ persistTable t tb ds,
        r.params.isTransferToRek = JVal.num (some 0)
        ∨ r.params.isTransferToRek = JVal.num (some 1) := by
  intro ds
  induction ds with
  | nil => intro tb htb r hr; exact htb r hr
  | cons d rest ih =>
    intro tb htb r hr
    by_cases hd : d.reffNumber.truthy
    · have hr' : r ∈ persistTable t (upsertOneSql t tb d) rest := by
        simpa [persistTable, List.foldl_cons, hd] using hr
      exact ih (upsertOneSql t tb d) (upsertOneSql_isTransferToRek t tb d htb)
        r hr'
    · have hr' : r ∈ persistTable t tb rest := by
        simpa [persistTable, List.foldl_cons, hd] using hr
      exact ih tb htb r hr'

/-- C9: the bound `is_transfer_to_rek` parameter is always the integer 0 or 1
(a falsy `isTransferToRek` input maps to 0, never to SQL `NULL`), so every row
ever written by the upsert satisfies the column's NOT NULL constraint. -/
theorem is_transfer_to_rek_zero_or_one :
    (∀ d : Detail, d.isTransferToRek.truthy = false →
        (mapDetailToColumns d).isTransferToRek = JVal.num (some 0))
    ∧ (∀ (t : Nat) (details : List Detail) (tb : List Row),
        (∀ r ∈ tb, r.params.isTransferToRek = JVal.num (some 0)
            ∨ r.params.isTransferToRek = JVal.num (some 1)) →
        ∀ r ∈ (persistDetails t tb details).1,
          r.params.isTransferToRek = JVal.num (some 0)
          ∨ r.params.isTransferToRek = JVal.num (some 1)) := by
  constructor
  · intro d hd
    simp [mapDetailToColumns, booleanToInt, hd]
  · intro t details tb htb r hr
    rw [persistDetails_fst] at hr
    exact persistTable_isTransferToRek t details tb htb r hr

/-! ## Poll scheduler (`poll`, `shouldRelogin` in
`scripts/watch_transactions.js`) -/

/-- `needle` is a prefix of `hay` (character-wise). -/
def charsStartWith : List Char → List Char → Bool
  | _, [] => true
  | [], _ :: _ => false
  | a :: as, b :: bs => a = b && charsStartWith as bs

/-- `needle` occurs contiguously somewhere in `hay`. -/
def charsContain (hay needle : List Char) : Bool :=
  match hay with
  | [] => needle.isEmpty
  | _ :: rest => charsStartWith hay needle || charsContain rest needle

/-- JavaScript `haystack.includes(needle)`: substring containment. -/
def jsIncludes (s sub : String) : Bool := charsContain s.data sub.data

/-- Lowercase an ASCII letter, leave any other character alone. -/
def asciiLower (c : Char) : Char :=
  if 'A' ≤ c ∧ c ≤ 'Z' then Char.ofNat (c.toNat + 32) else c

/-- JavaScript `s.toLowerCase()`, modelled over the ASCII alphabet (error
messages and header names in this program are ASCII). -/
def jsToLowerCase (s : String) : String := String.mk (s.data.map asciiLower)

/-- A JavaScript error as observed by the `poll` catch block: an optional
numeric `status` property (set by `fetchTransactions` on non-OK responses)
and a message string. -/
structure JsErr where
  status : Option Int
  message : String
deriving DecidableEq, Repr

/-- `shouldRelogin` (`scripts/watch_transactions.js`): a falsy error never
forces re-login; an error with HTTP status 401 or 403 does; otherwise the
lowercased message is searched for "unauthorized", "forbidden" or "login". -/
def shouldRelogin : Option JsErr → Bool
  | none => false
  | some e =>
    if e.status = some 401 ∨ e.status = some 403 then true
    else
      jsIncludes (jsToLowerCase e.message) "unauthorized"
      || jsIncludes (jsToLowerCase e.message) "forbidden"
      || jsIncludes (jsToLowerCase e.message) "login"

/-- The observable steps of one `poll` invocation. -/
inductive PollEvent where
  | headerRefresh
  | fetchStore
  | logFailure
  | reloginAttempt
  | navTransactions
  | captureHeaders
deriving DecidableEq, Repr

/-- The scheduler state read and written by `poll`: the in-flight flag
`polling` and the epoch-millisecond `lastRun`. -/
structure WatcherState where
  polling : Bool
  lastRun : Int
deriving DecidableEq, Repr

/-- Which error, if any, escapes the cycle body: a failure of
`refreshHeadersIfNeeded` pre-empts `fetchAndStore`. -/
def cycleError : Except JsErr Unit → Except JsErr Unit → Option JsErr
  | .error e, _ => some e
  | .ok _, .error e => some e
  | .ok _, .ok _ => none

/-- The steps the cycle body performs before any error escapes:
`refreshHeadersIfNeeded` always runs; `fetchAndStore` only if the refresh
succeeded. -/
def cycleEvents : Except JsErr Unit → Except JsErr Unit → List PollEvent
  | .error _, _ => [.headerRefresh]
  | .ok _, .error _ => [.headerRefresh, .fetchStore]
  | .ok _, .ok _ => [.headerRefresh, .fetchStore]

/-- One invocation of `poll`: return immediately if a cycle is in flight or
less than `interval − 1000` ms have elapsed since `lastRun`; otherwise run
the cycle, and on failure log it and — exactly when `shouldRelogin` accepts
the error — attempt one forced re-login (navigate back and recapture headers
if the re-login succeeds; `reloginOk = false` models the inner catch).  The
in-flight flag is `true` only during the invocation itself, so the returned
state has `polling = false`. -/
def pollRun (interval : Int) (st : WatcherState) (now : Int)
    (refreshOutcome fetchOutcome : Except JsErr Unit) (reloginOk : Bool) :
    WatcherState × List PollEvent :=
  if st.polling then (st, [])
  else if now - st.lastRun < interval - 1000 then (st, [])
  else
    let base := cycleEvents refreshOutcome fetchOutcome
    match cycleError refreshOutcome fetchOutcome with
    | none => (⟨false, now⟩, base)
    | some e =>
      if shouldRelogin (some e) then
        if reloginOk then
          (⟨false, now⟩, base ++ [.logFailure, .reloginAttempt,
            .navTransactions, .captureHeaders])
        else
          (⟨false, now⟩, base ++ [.logFailure, .reloginAttempt])
      else (⟨false, now⟩, base ++ [.logFailure])

/-- The loop state for the interleaved view of the timer: `inFlight` counts
invocations that have passed the guard and not yet reached their `finally`
block. -/
structure LoopState where
  polling : Bool
  lastRun : Int
  inFlight : Nat
deriving DecidableEq, Repr

/-- Timer operations: a timer tick invoking `poll` at instant `now` (the
guard check and the `polling = true` assignment are synchronous, hence one
atomic step), and a cycle reaching its `finally` block. -/
inductive SchedOp where
  | invoke (now : Int)
  | finish
deriving DecidableEq, Repr

/-- Small-step semantics of the poll loop guard. -/
def stepLoop (interval : Int) (s : LoopState) : SchedOp → LoopState
  | .invoke now =>
    if s.polling then s
    else if now - s.lastRun < interval - 1000 then s
    else { polling := true, lastRun := now, inFlight := s.inFlight + 1 }
  | .finish =>
    if s.polling then { s with polling := false, inFlight := s.inFlight - 1 }
    else s

/-- The initial loop state: `polling = false`, `lastRun = 0`. -/
def initLoopState : LoopState := ⟨false, 0, 0⟩

lemma stepLoop_inv (interval : Int) (s : LoopState) (op : SchedOp)
    (h : s.inFlight = if s.polling then 1 else 0) :
    (stepLoop interval s op).inFlight
      = if (stepLoop interval s op).polling then 1 else 0 := by
  cases op with
  | invoke now =>
    by_cases hp : s.polling
    · simpa [stepLoop, hp] using h
    · by_cases hd : now - s.lastRun < interval - 1000
      · simpa [stepLoop, hp, hd] using h
      · have h0 : s.inFlight = 0 := by simpa [hp] using h
        simp [stepLoop, hp, hd, h0]
  | finish =>
    by_cases hp : s.polling
    · have h1 : s.inFlight = 1 := by simpa [hp] using h
      simp [stepLoop, hp, h1]
    · simpa [stepLoop, hp] using h

lemma foldl_loop_inv (interval : Int) :
    ∀ (ops : List SchedOp) (s : LoopState),
      s.inFlight = (if s.polling then 1 else 0) →
      (ops.foldl (stepLoop interval) s).inFlight
        = if (ops.foldl (stepLoop interval) s).polling then 1 else 0 := by
  intro ops
  induction ops with
  | nil => intro s h; exact h
  | cons op rest ih =>
    intro s h
    exact ih (stepLoop interval s op) (stepLoop_inv interval s op h)

/-- C7: a `poll` invocation while a cycle is in flight, or before
`interval − 1s` has elapsed since the last run, does nothing at all (no
header refresh, no replay fetch, no persistence, no state change); and under
the guard semantics at most one cycle is ever in flight. -/
theorem poll_skip_and_mutual_exclusion :
    (∀ (interval : Int) (st : WatcherState) (now : Int)
        (r f : Except JsErr Unit) (ok : Bool),
        st.polling = true → pollRun interval st now r f ok = (st, []))
    ∧ (∀ (interval : Int) (st : WatcherState) (now : Int)
        (r f : Except JsErr Unit) (ok : Bool),
        now - st.lastRun < interval - 1000 →
        pollRun interval st now r f ok = (st, []))
    ∧ (∀ (interval : Int) (ops : List SchedOp),
        (ops.foldl (stepLoop interval) initLoopState).inFlight ≤ 1) := by
  refine ⟨?_, ?_, ?_⟩
  · intro interval st now r f ok hp
    simp [pollRun, hp]
  · intro interval st now r f ok hd
    by_cases hp : st.polling
    · simp [pollRun, hp]
    · simp [pollRun, hp, hd]
  · intro interval ops
    have h := foldl_loop_inv interval ops initLoopState (by simp [initLoopState])
    rw [h]
    by_cases hp : (ops.foldl (stepLoop interval) initLoopState).polling <;>
      simp [hp]

theorem poll_skip_and_mutual_exclusion_witness :
    pollRun 300000 ⟨true, 0⟩ 600000 (.ok ()) (.ok ()) true = (⟨true, 0⟩, [])
    ∧ pollRun 300000 ⟨false, 0⟩ 1000 (.ok ()) (.ok ()) true
        = (⟨false, 0⟩, [])
    ∧ ([SchedOp.invoke 0, SchedOp.invoke 1, SchedOp.finish].foldl
        (stepLoop 300000) initLoopState).inFlight ≤ 1 :=
  ⟨poll_skip_and_mutual_exclusion.1 300000 ⟨true, 0⟩ 600000 (.ok ()) (.ok ())
      true rfl,
   poll_skip_and_mutual_exclusion.2.1 300000 ⟨false, 0⟩ 1000 (.ok ()) (.ok ())
      true (by decide),
   poll_skip_and_mutual_exclusion.2.2 300000
      [SchedOp.invoke 0, SchedOp.invoke 1, SchedOp.finish]⟩

lemma shouldRelogin_iff (e : JsErr) :
    shouldRelogin (some e) = true ↔
      (e.status = some 401 ∨ e.status = some 403
       ∨ jsIncludes (jsToLowerCase e.message) "unauthorized" = true
       ∨ jsIncludes (jsToLowerCase e.message) "forbidden" = true
       ∨ jsIncludes (jsToLowerCase e.message) "login" = true) := by
  by_cases h : e.status = some 401 ∨ e.status = some 403
  · simp [shouldRelogin, h]
    tauto
  · simp [shouldRelogin, h]
    tauto

lemma cycleEvents_counts (r f : Except JsErr Unit) :
    (cycleEvents r f).count PollEvent.reloginAttempt = 0
    ∧ (cycleEvents r f).count PollEvent.logFailure = 0 := by
  cases r <;> cases f <;> exact ⟨rfl, rfl⟩

/-- C2: when the cycle body fails with error `e`, the poll forces exactly one
re-login attempt if and only if `e` carries HTTP status 401 or 403 or its
lowercased message contains "unauthorized", "forbidden" or "login"; every
failure is logged exactly once; and a successful forced re-login is followed
by a navigation back to the transactions page and a fresh header capture
within the same invocation, before any later cycle. -/
theorem relogin_on_auth_failure
    (interval : Int) (st : WatcherState) (now : Int)
    (r f : Except JsErr Unit) (ok : Bool) (e : JsErr)
    (hp : st.polling = false)
    (hd : ¬ (now - st.lastRun < interval - 1000))
    (he : cycleError r f = some e) :
    ((pollRun interval st now r f ok).2.count PollEvent.reloginAttempt
        = if e.status = some 401 ∨ e.status = some 403
            ∨ jsIncludes (jsToLowerCase e.message) "unauthorized" = true
            ∨ jsIncludes (jsToLowerCase e.message) "forbidden" = true
            ∨ jsIncludes (jsToLowerCase e.message) "login" = true
          then 1 else 0)
    ∧ (pollRun interval st now r f ok).2.count PollEvent.logFailure = 1
    ∧ (ok = true → shouldRelogin (some e) = true →
        [PollEvent.reloginAttempt, PollEvent.navTransactions,
          PollEvent.captureHeaders].Sublist (pollRun interval st now r f ok).2) := by
  obtain ⟨hbase1, hbase2⟩ := cycleEvents_counts r f
  have hpoll : ¬ st.polling = true := by simp [hp]
  by_cases hs : shouldRelogin (some e) = true
  · have hcond := (shouldRelogin_iff e).mp hs
    cases ok with
    | true =>
      have hrun : pollRun interval st now r f true
          = (⟨false, now⟩, cycleEvents r f ++ [PollEvent.logFailure,
              PollEvent.reloginAttempt, PollEvent.navTransactions,
              PollEvent.captureHeaders]) := by
        rw [pollRun, if_neg hpoll, if_neg hd]
        simp [he, hs]
      refine ⟨?_, ?_, ?_⟩
      · rw [hrun, if_pos hcond]
        show (cycleEvents r f ++ _).count _ = 1
        rw [List.count_append, hbase1]
        rfl
      · rw [hrun]
        show (cycleEvents r f ++ _).count _ = 1
        rw [List.count_append, hbase2]
        rfl
      · intro _ _
        rw [hrun]
        exact List.Sublist.trans ((List.Sublist.refl _).cons _)
          (List.sublist_append_right _ _)
    | false =>
      have hrun : pollRun interval st now r f false
          = (⟨false, now⟩, cycleEvents r f ++ [PollEvent.logFailure,
              PollEvent.reloginAttempt]) := by
        rw [pollRun, if_neg hpoll, if_neg hd]
        simp [he, hs]
      refine ⟨?_, ?_, ?_⟩
      · rw [hrun, if_pos hcond]
        show (cycleEvents r f ++ _).count _ = 1
        rw [List.count_append, hbase1]
        rfl
      · rw [hrun]
        show (cycleEvents r f ++ _).count _ = 1
        rw [List.count_append, hbase2]
        rfl
      · intro hok _
        exact absurd hok (by simp)
  · have hcond : ¬ (e.status = some 401 ∨ e.status = some 403
        ∨ jsIncludes (jsToLowerCase e.message) "unauthorized" = true
        ∨ jsIncludes (jsToLowerCase e.message) "forbidden" = true
        ∨ jsIncludes (jsToLowerCase e.message) "login" = true) := fun hc =>
      hs ((shouldRelogin_iff e).mpr hc)
    have hrun : pollRun interval st now r f ok
        = (⟨false, now⟩, cycleEvents r f ++ [PollEvent.logFailure]) := by
      rw [pollRun, if_neg hpoll, if_neg hd]
      simp [he, hs]
    refine ⟨?_, ?_, ?_⟩
    · rw [hrun, if_neg hcond]
      show (cycleEvents r f ++ _).count _ = 0
      rw [List.count_append, hbase1]
      rfl
    · rw [hrun]
      show (cycleEvents r f ++ _).count _ = 1
      rw [List.count_append, hbase2]
      rfl
    · intro _ hs'
      exact absurd hs' hs

/-- The error produced by a replay returning HTTP 401. -/
def err401 : JsErr := ⟨some 401, "Transaction fetch failed: HTTP 401 "⟩

theorem relogin_on_auth_failure_witness :
    (pollRun 300000 ⟨false, 0⟩ 300000 (.ok ()) (.error err401) true).2.count
        PollEvent.reloginAttempt
      = if err401.status = some 401 ∨ err401.status = some 403
          ∨ jsIncludes (jsToLowerCase err401.message) "unauthorized" = true
          ∨ jsIncludes (jsToLowerCase err401.message) "forbidden" = true
          ∨ jsIncludes (jsToLowerCase err401.message) "login" = true
        then 1 else 0 :=
  (relogin_on_auth_failure 300000 ⟨false, 0⟩ 300000 (.ok ()) (.error err401)
    true err401 rfl (by decide) rfl).1

/-- A record whose `isTransferToRek` field is absent (`undefined`). -/
def sampleDetailNoFlag : Detail :=
  { sampleDetail "TX9" with isTransferToRek := .undef }

theorem is_transfer_to_rek_zero_or_one_witness :
    (mapDetailToColumns sampleDetailNoFlag).isTransferToRek
      = JVal.num (some 0)
    ∧ ((Row.mk (mapDetailToColumns (sampleDetail "TX1")) 3 3).params.isTransferToRek
          = JVal.num (some 0)
       ∨ (Row.mk (mapDetailToColumns (sampleDetail "TX1")) 3 3).params.isTransferToRek
          = JVal.num (some 1)) :=
  ⟨is_transfer_to_rek_zero_or_one.1 sampleDetailNoFlag (by decide),
   is_transfer_to_rek_zero_or_one.2 3 [sampleDetail "TX1"] []
     (by intro r hr; exact absurd hr (List.not_mem_nil r))
     (Row.mk (mapDetailToColumns (sampleDetail "TX1")) 3 3)
     (by decide)⟩

/-! ## Date normalization (`normalizeDateInput`, `formatDate` in the
one-shot fetch script) -/

/-- `String(x).padStart(2, "0")` for a month/day number. -/
def pad2 (n : Nat) : String := if n < 10 then "0" ++ toString n else toString n

/-- `formatDate`: `yyyy` + zero-padded month + zero-padded day. -/
def formatDate (y m d : Nat) : String := toString y ++ pad2 m ++ pad2 d

/-- The source's global hyphen replacement on `raw`: remove every hyphen. -/
def stripHyphens (s : String) : String :=
  String.mk (s.data.filter (fun c => c ≠ '-'))

/-- The regular expression test `/^\d{8}$/.test(cleaned)`. -/
def isEightDigits (s : String) : Bool :=
  s.length == 8 && s.data.all Char.isDigit

/-- `normalizeDateInput`: a falsy argument (absent or empty) falls back to
the formatted fallback date; otherwise hyphens are stripped and the result
must be exactly eight digits, else the function throws a format error. -/
def normalizeDateInput (raw : Option String) (fallback : Nat × Nat × Nat) :
    Except String String :=
  match raw with
  | none => .ok (formatDate fallback.1 fallback.2.1 fallback.2.2)
  | some r =>
    if r = "" then .ok (formatDate fallback.1 fallback.2.1 fallback.2.2)
    else if isEightDigits (stripHyphens r) then .ok (stripHyphens r)
    else .error ("Invalid date format: " ++ r
      ++ " (expected YYYY-MM-DD or YYYYMMDD)")

/-- C5 counterexample: the wrongly grouped date "25-11-2026" is not rejected;
its hyphen-stripped form has eight digits, so normalization accepts it and
returns "25112026". -/
theorem normalize_date_wrong_grouping_accepted :
    normalizeDateInput (some "25-11-2026") (2025, 11, 26)
      = Except.ok "25112026" := rfl

/-- C5 (amended): "2025-11-26" and "20251126" both normalize to "20251126",
and a nonempty date string fails with a format error exactly when its
hyphen-stripped form is not a string of exactly eight digits (wrong digit
grouping alone, as in "25-11-2026", is not detected). -/
theorem normalize_date_amended :
    normalizeDateInput (some "2025-11-26") (2025, 11, 26)
      = Except.ok "20251126"
    ∧ normalizeDateInput (some "20251126") (2025, 11, 26)
      = Except.ok "20251126"
    ∧ ∀ (r : String) (fb : Nat × Nat × Nat), r ≠ "" →
        ((∃ m, normalizeDateInput (some r) fb = Except.error m)
          ↔ isEightDigits (stripHyphens r) = false) := by
  refine ⟨rfl, rfl, ?_⟩
  intro r fb hr
  rw [normalizeDateInput, if_neg hr]
  by_cases hc : isEightDigits (stripHyphens r) = true
  · rw [if_pos hc]
    simp [hc]
  · rw [if_neg hc]
    simp only [Bool.not_eq_true] at hc
    simp [hc]

theorem normalize_date_amended_witness :
    (∃ m, normalizeDateInput (some "2025-1-26") (2025, 11, 26)
        = Except.error m)
      ↔ isEightDigits (stripHyphens "2025-1-26") = false :=
  normalize_date_amended.2.2 "2025-1-26" (2025, 11, 26) (by decide)

/-! ## Replay clients (`fetchTransactionsFromPage` in the one-shot script,
`fetchTransactions` / `filterHeaders` in the watcher) -/

/-- The fixed transaction-fetch endpoint. -/
def transactionApiUrl : String :=
  "https://qris.bankmandiri.co.id/api/homeScreen/getDataTransaksi/auth/homeScreen"

/-- `whitelistedHeaders` (one-shot script): keep, in whitelist order, each
key whose value in the captured map is truthy (present and nonempty). -/
def whitelistedHeaders (headerMap : List (String × String))
    (keys : List String) : List (String × String) :=
  keys.filterMap (fun k =>
    match headerMap.lookup k with
    | some v => if v ≠ "" then some (k, v) else none
    | none => none)

/-- The one-shot script's whitelist. -/
def headerKeys : List String :=
  ["secret-id", "secret-key", "secret-token", "session-item", "accept"]

/-- A GET request against the transaction-fetch endpoint as handed to
`page.evaluate`: query parameters and the replayed headers. -/
structure ReplayRequest where
  url : String
  startDate : String
  endDate : String
  isLimitValidated : String
  headers : List (String × String)
deriving DecidableEq, Repr

/-- `fetchTransactionsFromPage` (one-shot script): after whitelist filtering,
a missing (falsy) `secret-id` or `secret-key` raises an error before
`page.evaluate` runs; otherwise the value is the issued network request. -/
def fetchTransactionsFromPage (headers : List (String × String))
    (startDate endDate : String) : Except String ReplayRequest :=
  if (whitelistedHeaders headers headerKeys).lookup "secret-id" = none
     ∨ (whitelistedHeaders headers headerKeys).lookup "secret-key" = none then
    .error "Captured headers did not include required secret fields."
  else
    .ok { url := transactionApiUrl, startDate := startDate,
          endDate := endDate, isLimitValidated := "false",
          headers := whitelistedHeaders headers headerKeys }

/-- The watcher's whitelist (`filterHeaders` in
`scripts/watch_transactions.js`). -/
def allowedHeaderNames : List String :=
  ["secret-id", "secret-key", "secret-token", "session-item", "accept",
   "accept-language", "referer"]

/-- `filterHeaders` (watcher): lowercase each key and keep the allowed ones;
no truthiness check on values, no validation of required fields. -/
def filterHeaders (headers : List (String × String)) :
    List (String × String) :=
  headers.filterMap (fun kv =>
    if allowedHeaderNames.contains (jsToLowerCase kv.1) then some ((jsToLowerCase kv.1), kv.2)
    else none)

/-- `fetchTransactions` (watcher): the GET request is always issued inside
`page.evaluate`; there is no check of the filtered header set beforehand. -/
def fetchTransactionsWatcher (headers : List (String × String))
    (startDate endDate : String) : ReplayRequest :=
  { url := transactionApiUrl, startDate := startDate, endDate := endDate,
    isLimitValidated := "false", headers := filterHeaders headers }

/-- C4 counterexample: the continuous watcher's replay issues the network
request to the transaction-fetch endpoint even though the whitelist-filtered
header set lacks `secret-key` — no fail-fast rejection happens on that
path. -/
theorem watcher_replay_issued_without_secret_key :
    (fetchTransactionsWatcher
        [("secret-id", "SID"), ("accept", "application/json")]
        "20251126" "20251126").url = transactionApiUrl
    ∧ (fetchTransactionsWatcher
        [("secret-id", "SID"), ("accept", "application/json")]
        "20251126" "20251126").headers.lookup "secret-key" = none :=
  ⟨rfl, by decide⟩

/-- C4 (amended): in the one-shot fetch script, a captured header set whose
whitelist-filtered form lacks `secret-key` is rejected with an error before
the network request is issued; the continuous watcher's replay performs no
such check. -/
theorem replay_rejected_without_secret_key
    (headers : List (String × String)) (s e : String)
    (hk : (whitelistedHeaders headers headerKeys).lookup "secret-key" = none) :
    fetchTransactionsFromPage headers s e
      = Except.error "Captured headers did not include required secret fields." := by
  rw [fetchTransactionsFromPage, if_pos (Or.inr hk)]

theorem replay_rejected_without_secret_key_witness :
    (whitelistedHeaders [("secret-id", "SID"), ("accept", "application/json")]
        headerKeys).lookup "secret-key" = none
    ∧ fetchTransactionsFromPage
        [("secret-id", "SID"), ("accept", "application/json")]
        "20251126" "20251126"
      = Except.error "Captured headers did not include required secret fields." :=
  ⟨rfl,
   replay_rejected_without_secret_key
     [("secret-id", "SID"), ("accept", "application/json")]
     "20251126" "20251126" rfl⟩

/-! ## Post-login settle waits (`ensureLogin`, `waitForPostLoginSignals` in
the watcher) -/

/-- Which readiness signals occur within their individual timeouts during one
login attempt. -/
structure PostLoginSignals where
  navigation : Bool
  refreshResponse : Bool
  urlPostLogin : Bool
  docReady : Bool
deriving DecidableEq, Repr

/-- A bounded Puppeteer wait: resolves when the condition is observed within
the timeout, otherwise rejects with a timeout error. -/
def waitBounded (observed : Bool) (msg : String) : Except String Unit :=
  if observed then .ok () else .error msg

/-- `.catch(() => null)`: any rejection of the awaited promise is
swallowed. -/
def catchNull (r : Except String Unit) : Except String Unit :=
  match r with
  | .ok _ => .ok ()
  | .error _ => .ok ()

/-- `waitForPostLoginSignals` (watcher): the refresh-response wait and the
post-login-URL wait each carry `.catch(() => null)`; the
`document.readyState === "complete"` wait does not, so its rejection
propagates. -/
def waitForPostLoginSignals (s : PostLoginSignals) : Except String Unit :=
  match catchNull (waitBounded s.refreshResponse
      "timeout: loginCtl refresh POST") with
  | .error e => .error e
  | .ok _ =>
    match catchNull (waitBounded s.urlPostLogin "timeout: post-login URL") with
    | .error e => .error e
    | .ok _ => waitBounded s.docReady "timeout: document.readyState complete"

/-- The settle phase at the end of `ensureLogin`: the navigation promise is
awaited with `.catch(() => null)`, then the post-login signal waits run. -/
def ensureLoginSettle (s : PostLoginSignals) : Except String Unit :=
  match catchNull (waitBounded s.navigation "timeout: navigation") with
  | .error e => .error e
  | .ok _ => waitForPostLoginSignals s

lemma catchNull_ok (r : Except String Unit) : catchNull r = .ok () := by
  cases r <;> rfl

/-- C8 counterexample: when no readiness signal occurs — in particular the
document-ready wait times out — the login settle phase aborts with an error
instead of proceeding to completion. -/
theorem post_login_docready_timeout_aborts :
    ensureLoginSettle ⟨false, false, false, false⟩
      = Except.error "timeout: document.readyState complete" := rfl

/-- C8 (amended): absence of the navigation, authentication-refresh, or
post-login-URL signal is tolerated (their waits are wrapped in
`.catch(() => null)`), but the `document.readyState` wait is not: the settle
phase completes exactly when the document-ready signal is observed. -/
theorem post_login_waits_tolerated (s : PostLoginSignals) :
    ensureLoginSettle s = .ok () ↔ s.docReady = true := by
  rw [ensureLoginSettle, catchNull_ok, waitForPostLoginSignals, catchNull_ok,
    catchNull_ok]
  cases hdoc : s.docReady <;> simp [waitBounded, hdoc]

/-! ## Transaction list endpoint (`handleListTransactions` in
`worker/src/index.ts`) -/

/-- JavaScript `parseInt(s)` (radix 10, integer precision): skip leading
whitespace, read an optional sign and a maximal digit prefix; `none` models
`NaN` when no digit is found. -/
def jsParseInt (s : String) : Option Int :=
  let digitsVal : List Char → Option Nat := fun cs =>
    let ds := cs.takeWhile Char.isDigit
    if ds.isEmpty then none
    else some (ds.foldl (fun a c => a * 10 + (c.toNat - 48)) 0)
  match s.data.dropWhile (fun c => c.isWhitespace) with
  | '-' :: rest => (digitsVal rest).map (fun n => -(n : Int))
  | '+' :: rest => (digitsVal rest).map (fun n => (n : Int))
  | l => (digitsVal l).map (fun n => (n : Int))

/-- `url.searchParams.get(name) || dflt`: an absent or empty parameter falls
back to the default string. -/
def effectiveParam (p : Option String) (dflt : String) : String :=
  match p with
  | none => dflt
  | some s => if s = "" then dflt else s

/-- SQLite semantics of the query's trailing `LIMIT ? OFFSET ?`: a negative
OFFSET behaves as 0, and a negative LIMIT means no upper bound on the number
of returned rows. -/
def sqlLimitOffset {α : Type} (rows : List α) (limit offset : Int) :
    List α :=
  if limit < 0 then rows.drop offset.toNat
  else (rows.drop offset.toNat).take limit.toNat

/-- `handleListTransactions` (worker): effective limit
`Math.min(parseInt(limit || "10"), 100)`, offset `parseInt(offset || "0")`,
both bound into `LIMIT ? OFFSET ?` over the filtered, ordered row set
(modelled by `rows`).  `none` models a `NaN` reaching the store binding. -/
def handleListTransactions {α : Type} (rows : List α)
    (limitParam offsetParam : Option String) : Option (List α) :=
  match jsParseInt (effectiveParam limitParam "10"),
        jsParseInt (effectiveParam offsetParam "0") with
  | some l, some o => some (sqlLimitOffset rows (min l 100) o)
  | _, _ => none

/-- C10 counterexample: with `limit=-5` the effective limit is
`min(-5, 100) = -5`, and a negative SQLite LIMIT removes the bound, so a
101-row table comes back whole — more than 100 transactions in one
response. -/
theorem list_endpoint_negative_limit_unbounded :
    handleListTransactions (List.range 101) (some "-5") none
      = some (List.range 101)
    ∧ 100 <
        ((handleListTransactions (List.range 101) (some "-5") none).getD
          []).length := by
  refine ⟨rfl, ?_⟩
  decide

/-- C10 (amended): with no limit parameter the endpoint returns at most the
default 10 rows; whenever the supplied limit parses to a nonnegative integer
the effective limit is capped at 100 and the response holds at most 100
rows; only a negative parsed limit escapes the cap. -/
theorem list_endpoint_limit_cap {α : Type} :
    (∀ rows : List α,
        handleListTransactions rows none none = some (rows.take 10))
    ∧ ∀ (rows : List α) (limitParam offsetParam : Option String)
        (l : Int) (res : List α),
        jsParseInt (effectiveParam limitParam "10") = some l →
        0 ≤ l →
        handleListTransactions rows limitParam offsetParam = some res →
        res.length ≤ 100 := by
  constructor
  · intro rows
    rfl
  · intro rows limitParam offsetParam l res hl hnn hres
    rw [handleListTransactions, hl] at hres
    cases ho : jsParseInt (effectiveParam offsetParam "0") with
    | none => rw [ho] at hres; exact absurd hres (by simp)
    | some o =>
      rw [ho] at hres
      have hres' : res = sqlLimitOffset rows (min l 100) o := by
        injection hres with h
        exact h.symm
      subst hres'
      rw [sqlLimitOffset]
      have hmin0 : (0 : Int) ≤ min l 100 :=
        le_min hnn (by norm_num)
      rw [if_neg (by omega)]
      have h1 : ((rows.drop o.toNat).take (min l 100).toNat).length
          ≤ (min l 100).toNat := by
        rw [List.length_take]
        exact min_le_left _ _
      have h2 : min l 100 ≤ 100 := min_le_right _ _
      omega

theorem list_endpoint_limit_cap_witness :
    jsParseInt (effectiveParam (some "7") "10") = some 7
    ∧ (List.range 5).length ≤ 100 :=
  ⟨rfl,
   list_endpoint_limit_cap.2 (List.range 5) (some "7") none 7 (List.range 5)
     rfl (by decide) rfl⟩

/-! ## Recursive detail extractor (`collectDetailRecords` in the watcher,
`extractTransactionDetails` in the worker)

The parsed response is an object graph on an explicit heap: `n` objects
addressed by `Fin n`, each holding an ordered field list.  A cyclic graph is
a heap whose references loop.  The JS `WeakSet` of visited nodes is a
`Finset` of addresses.  The source's recursive `walk` with a shared output
list is defunctionalized with an explicit work stack, preserving the
depth-first document order: entering a fresh node pushes its `detail` object
(if any) and then walks its field values before the remainder of the
stack. -/

/-- A value in the parsed response: a primitive (string, number, boolean or
null — never walked, never collected) or a reference to a heap object. -/
inductive JRef (n : Nat) where
  | prim : JRef n
  | obj : Fin n → JRef n
deriving DecidableEq, Repr

/-- An object graph: each address carries its ordered field list.  An array
is an object whose field values are its items. -/
structure JHeap (n : Nat) where
  fields : Fin n → List (String × JRef n)

/-- `node.detail` when it is a (non-null) object: the pushed detail
reference. -/
def detailOf {n : Nat} (h : JHeap n) (a : Fin n) : Option (Fin n) :=
  match (h.fields a).lookup "detail" with
  | some (JRef.obj b) => some b
  | _ => none

/-- The values walked from a node, in document order (`Object.values` for a
plain object, element iteration for an array — the same list here). -/
def childValues {n : Nat} (h : JHeap n) (a : Fin n) : List (JRef n) :=
  (h.fields a).map Prod.snd

/-- The `walk` of `collectDetailRecords`: skip primitives and
already-visited nodes; a fresh node is marked visited, contributes its
`detail` object if present, and its field values are walked before the rest
of the work stack. -/
def collectWalk {n : Nat} (h : JHeap n) (visited : Finset (Fin n))
    (stack : List (JRef n)) : List (Fin n) :=
  match stack with
  | [] => []
  | JRef.prim :: rest => collectWalk h visited rest
  | JRef.obj a :: rest =>
    if ha : a ∈ visited then collectWalk h visited rest
    else
      (detailOf h a).toList ++
        collectWalk h (insert a visited) (childValues h a ++ rest)
termination_by (n - visited.card, stack.length)
decreasing_by
  · apply Prod.Lex.right
    simp
  · apply Prod.Lex.right
    simp
  · apply Prod.Lex.left
    have hcard : (insert a visited).card = visited.card + 1 :=
      Finset.card_insert_of_not_mem ha
    have hlt : visited.card < n := by
      have hne : visited ≠ Finset.univ := fun hu => ha (hu ▸ Finset.mem_univ a)
      have := Finset.card_lt_card
        (Finset.ssubset_univ_iff.mpr hne)
      simpa using this
    omega

/-- `collectDetailRecords(payload)` / `extractTransactionDetails(payload)`:
walk from the root with an empty visited set. -/
def collectDetailRecords {n : Nat} (h : JHeap n) (root : JRef n) :
    List (Fin n) :=
  collectWalk h ∅ [root]

/-- A cyclic object graph in which two distinct nodes share one detail
object: node 0 references nodes 1 and 2, each of which has the same object 3
as its `detail`, and node 3 references node 0 (its ancestor). -/
def aliasedHeap : JHeap 4 where
  fields := fun a =>
    if a = 0 then [("a", JRef.obj 1), ("b", JRef.obj 2)]
    else if a = 1 then [("detail", JRef.obj 3)]
    else if a = 2 then [("detail", JRef.obj 3)]
    else [("back", JRef.obj 0)]

/-- C3 counterexample: on the cyclic graph `aliasedHeap` the extractor
terminates but returns detail object 3 twice — once per parent node whose
`detail` field references it — refuting "each detail object appears at most
once". -/
theorem collect_details_duplicate_on_aliased_detail :
    collectDetailRecords aliasedHeap (JRef.obj 0) = [3, 3]
    ∧ (collectDetailRecords aliasedHeap (JRef.obj 0)).count 3 = 2 := by
  have hrun : collectDetailRecords aliasedHeap (JRef.obj 0) = [3, 3] := by
    rw [collectDetailRecords]
    repeat
      first
      | rfl
      | (rw [collectWalk]
         try simp [aliasedHeap, detailOf, childValues, List.lookup])
  exact ⟨hrun, by rw [hrun]; rfl⟩

lemma collectWalk_count_le {n : Nat} (h : JHeap n) (d : Fin n) :
    ∀ (visited : Finset (Fin n)) (stack : List (JRef n)),
      (collectWalk h visited stack).count d
        ≤ (Finset.univ.filter
            (fun a => a ∉ visited ∧ detailOf h a = some d)).card := by
  intro visited stack
  induction visited, stack using collectWalk.induct h with
  | case1 visited => simp [collectWalk]
  | case2 visited rest ih =>
    rw [collectWalk]
    exact ih
  | case3 visited a rest ha ih =>
    rw [collectWalk]
    simp only [dif_pos ha]
    exact ih
  | case4 visited a rest ha ih =>
    rw [collectWalk]
    simp only [dif_neg ha]
    rw [List.count_append]
    have hsub : (Finset.univ.filter
          (fun b => b ∉ insert a visited ∧ detailOf h b = some d))
        ⊆ (Finset.univ.filter
          (fun b => b ∉ visited ∧ detailOf h b = some d)) := by
      intro b hb
      simp only [Finset.mem_filter, Finset.mem_insert, not_or] at hb ⊢
      exact ⟨hb.1, hb.2.1.2, hb.2.2⟩
    by_cases hda : detailOf h a = some d
    · have haS : a ∈ Finset.univ.filter
          (fun b => b ∉ visited ∧ detailOf h b = some d) := by
        simp [Finset.mem_filter, ha, hda]
      have hS' : (Finset.univ.filter
            (fun b => b ∉ insert a visited ∧ detailOf h b = some d))
          = (Finset.univ.filter
            (fun b => b ∉ visited ∧ detailOf h b = some d)).erase a := by
        ext b
        simp only [Finset.mem_filter, Finset.mem_erase, Finset.mem_insert,
          not_or, Finset.mem_univ, true_and]
        tauto
      have hcount1 : (detailOf h a).toList.count d = 1 := by
        rw [hda]; simp
      have hpos : 1 ≤ (Finset.univ.filter
          (fun b => b ∉ visited ∧ detailOf h b = some d)).card :=
        Finset.card_pos.mpr ⟨a, haS⟩
      rw [hcount1]
      have hcard := Finset.card_erase_of_mem haS
      rw [hS', hcard] at ih
      omega
    · have hcount0 : (detailOf h a).toList.count d = 0 := by
        cases hdo : detailOf h a with
        | none => rfl
        | some b =>
          have hbd : ¬ (b == d) = true := by
            simp only [beq_iff_eq]
            intro hbd
            exact hda (by rw [hdo, hbd])
          simp [Option.toList, List.count_cons, hbd]
      rw [hcount0]
      have := Finset.card_le_card hsub
      omega

/-- C3 (amended): the extractor terminates on every object graph, cyclic
ones included (`collectWalk` is total), and each detail object appears in
the returned list at most as many times as there are distinct nodes whose
`detail` field references it — hence at most once when no two nodes share a
detail object; an aliased detail object is collected once per referencing
parent. -/
theorem collect_details_count_bound {n : Nat} (h : JHeap n) (root : JRef n)
    (d : Fin n) :
    (collectDetailRecords h root).count d
      ≤ (Finset.univ.filter (fun a => detailOf h a = some d)).card := by
  refine le_trans (collectWalk_count_le h d ∅ [root]) ?_
  refine Finset.card_le_card ?_
  intro b hb
  simp only [Finset.mem_filter, Finset.not_mem_empty, not_false_iff,
    true_and, Finset.mem_univ] at hb ⊢
  exact hb

end QrisWatcher
